import Mathlib

/-!
Shallow embedding of the Redis cache database layer in
`src/nautilus_core/infrastructure/src/redis/cache.rs`.

Byte payload segments (`Vec<u8>`) are modelled as `List Nat`; the store is a
finite keyspace `String → Option RVal` with one typed value per key as in
Redis; pipelined store operations are modelled as an explicit `StoreOp`
inductive appended to a batch list; Rust `anyhow` errors become the `DbErr`
inductive; Rust panics (slice indexing out of bounds, `expect` on a `None`
key, the unreachable `Close` arm in `drain_buffer`) become the `.panic`
constructor of `OpResult`, tagged by which panic fired.
-/

namespace RedisCache

/-- A byte sequence, `Vec<u8>` in the source. -/
abbrev Bytes := List Nat

/-- UTF-8 bytes of a string (`String::into_bytes`); for the ASCII strings this
development manipulates, code points and bytes coincide. -/
def strBytes (s : String) : Bytes := s.toList.map Char.toNat

/-- `DELIMITER` constant in the source. -/
def DELIMITER : Char := ':'

/-- The database operation kinds (`DatabaseOperation`). -/
inductive DatabaseOperation
  | insert
  | update
  | delete
  | close
deriving DecidableEq

/-- A database command (`DatabaseCommand`): operation, optional key,
optional payload segments. -/
structure DatabaseCommand where
  op_type : DatabaseOperation
  key : Option String
  payload : Option (List Bytes)
deriving DecidableEq

/-- `DatabaseCommand::new`: always populates the key with `Some`. -/
def DatabaseCommand.new (op_type : DatabaseOperation) (key : String)
    (payload : Option (List Bytes)) : DatabaseCommand :=
  ⟨op_type, some key, payload⟩

/-- `DatabaseCommand::close`: no key, no payload. -/
def DatabaseCommand.closeCommand : DatabaseCommand :=
  ⟨DatabaseOperation.close, none, none⟩

/-- Rust's `str::split_once` on a list of characters: splits at the first
occurrence of `c`, returning the parts before and after it. -/
def splitOnceAux : List Char → Char → Option (List Char × List Char)
  | [], _ => none
  | x :: xs, c =>
    if x = c then some ([], xs)
    else
      match splitOnceAux xs c with
      | some (a, b) => some (x :: a, b)
      | none => none

/-- Rust's `str::split_once` on strings. -/
def split_once (s : String) (c : Char) : Option (String × String) :=
  match splitOnceAux s.toList c with
  | some (a, b) => some (String.mk a, String.mk b)
  | none => none

/-- Errors of the cache layer (`anyhow` error values in the source), tagged
by which formatted message produced them. -/
inductive DbErr
  /-- "Invalid `key`, missing a ':' delimiter, was {key}" -/
  | keyFormat (key : String)
  /-- "Unsupported operation: `{op}` for collection '{collection}'" -/
  | unsupported (op collection : String)
  /-- "Index unknown '{index_key}' on {op}" (read / insert) -/
  | indexUnknown (index_key op : String)
  /-- "Unsupported index operation: remove from '{index_key}'" -/
  | unsupportedIndexRemove (index_key : String)
  /-- `check_slice_not_empty` failure: "the '{param}' slice was empty" -/
  | emptySlice (param : String)
  /-- drain-level "Null `payload` for `{op}`" log -/
  | nullPayload (op : String)
  /-- "Empty `payload` for `delete` '{key}'" in `remove_index` -/
  | emptyPayloadDelete (key : String)
  /-- Redis WRONGTYPE reply: reading a key holding another structure -/
  | wrongType (key : String)
deriving DecidableEq

/-- The Rust panics reachable from the worker code, by site. -/
inductive PanicMsg
  /-- `msg.key.expect("Null command `key`")` in `drain_buffer` -/
  | nullKey
  /-- `panic!("Close command should not be drained")` in `drain_buffer` -/
  | closeDrained
  /-- slice index out of bounds (`value[0]` / `value[1]`) -/
  | indexOutOfBounds
deriving DecidableEq

/-- A single store operation appended to the pipelined batch. -/
inductive StoreOp
  | set (key : String) (value : Bytes)
  | sadd (key : String) (value : Bytes)
  | hset (key : String) (field value : Bytes)
  | rpush (key : String) (value : Bytes)
  | rpushExists (key : String) (value : Bytes)
  | srem (key : String) (member : Bytes)
  | del (key : String)
deriving DecidableEq

/-- Outcome of translating one command (or sub-call) into batch operations:
either the operations appended, a recoverable error (logged by the caller in
`drain_buffer`), or a panic. -/
inductive OpResult
  | ok (ops : List StoreOp)
  | err (e : DbErr)
  | panic (m : PanicMsg)
deriving DecidableEq

/-- `get_collection_key`: the part of `key` before the first delimiter. -/
def get_collection_key (key : String) : Except DbErr String :=
  match split_once key DELIMITER with
  | some (collection, _) => .ok collection
  | none => .error (.keyFormat key)

/-- `get_index_key`: the part of `key` after the first delimiter. -/
def get_index_key (key : String) : Except DbErr String :=
  match split_once key DELIMITER with
  | some (_, index_key) => .ok index_key
  | none => .error (.keyFormat key)

/-- The configuration entries consulted by `get_trader_key`: the JSON values
stored under "use_trader_prefix" and "use_instance_id" when they are
booleans (`if let Some(json!(true)) = config.get(...)` matches exactly the
value `true`; an absent key is `none`). -/
structure CacheConfig where
  trader_pfx_flag : Option Bool
  instance_id_flag : Option Bool
deriving DecidableEq

/-- `get_trader_key`: optional literal "trader-", then the trader id, then
optionally the delimiter and the instance id. -/
def get_trader_key (trader_id : String) (instance_id : String)
    (config : CacheConfig) : String :=
  let key := ""
  let key := if config.trader_pfx_flag = some true then key ++ "trader-" else key
  let key := key ++ trader_id
  let key :=
    if config.instance_id_flag = some true then
      (key.push DELIMITER) ++ instance_id
    else key
  key

/-- A typed Redis value: scalar string, list, set, or hash. Hash fields and
values are decoded to `String` on read (`HashMap<String, String>` in
`read_hset`), so the hash case stores strings. -/
inductive RVal
  | str (b : Bytes)
  | list (items : List Bytes)
  | set (members : List Bytes)
  | hash (pairs : List (String × String))

/-- The store keyspace: each physical key holds at most one typed value. -/
def Store := String → Option RVal

/-- `serde_json::to_string` of a string-to-string map, rendered from its
entry list; the empty map renders as "\x7b\x7d". -/
def jsonOfPairs (pairs : List (String × String)) : String :=
  "\x7b" ++ String.intercalate ","
    (pairs.map (fun p => "\"" ++ p.1 ++ "\":\"" ++ p.2 ++ "\"")) ++ "\x7d"

/-- `read_string`: `GET key`; an absent key decodes to an empty `Vec<u8>`,
and an empty result yields an empty segment sequence. -/
def read_string (st : Store) (key : String) : Except DbErr (List Bytes) :=
  match st key with
  | none => .ok []
  | some (.str b) => if b = [] then .ok [] else .ok [b]
  | some _ => .error (.wrongType key)

/-- `read_set`: `SMEMBERS key`; one segment per member. -/
def read_set (st : Store) (key : String) : Except DbErr (List Bytes) :=
  match st key with
  | none => .ok []
  | some (.set members) => .ok members
  | some _ => .error (.wrongType key)

/-- `read_hset`: `HGETALL key` into a string map, then one segment holding
its JSON serialization. -/
def read_hset (st : Store) (key : String) : Except DbErr (List Bytes) :=
  match st key with
  | none => .ok [strBytes (jsonOfPairs [])]
  | some (.hash pairs) => .ok [strBytes (jsonOfPairs pairs)]
  | some _ => .error (.wrongType key)

/-- `read_list`: `LRANGE key 0 -1`; the whole list, one segment per item. -/
def read_list (st : Store) (key : String) : Except DbErr (List Bytes) :=
  match st key with
  | none => .ok []
  | some (.list items) => .ok items
  | some _ => .error (.wrongType key)

/-- `read_index`: dispatch on `get_index_key` applied to the key it is
handed (the physical, trader-prefixed key in `RedisCacheDatabase::read`). -/
def read_index (st : Store) (key : String) : Except DbErr (List Bytes) :=
  match get_index_key key with
  | .error e => .error e
  | .ok index_key =>
    if index_key = "index:order_ids" then read_set st key
    else if index_key = "index:order_position" then read_hset st key
    else if index_key = "index:order_client" then read_hset st key
    else if index_key = "index:orders" then read_set st key
    else if index_key = "index:orders_open" then read_set st key
    else if index_key = "index:orders_closed" then read_set st key
    else if index_key = "index:orders_emulated" then read_set st key
    else if index_key = "index:orders_inflight" then read_set st key
    else if index_key = "index:positions" then read_set st key
    else if index_key = "index:positions_open" then read_set st key
    else if index_key = "index:positions_closed" then read_set st key
    else .error (.indexUnknown index_key "read")

/-- `RedisCacheDatabase::read`: resolve the collection from the logical key,
build the physical key by prepending the trader key and the delimiter, then
dispatch to the per-collection read. -/
def RedisCacheDatabase.read (trader_key : String) (st : Store)
    (key : String) : Except DbErr (List Bytes) :=
  match get_collection_key key with
  | .error e => .error e
  | .ok collection =>
    let pkey := (trader_key.push DELIMITER) ++ key
    if collection = "index" then read_index st pkey
    else if collection = "general" then read_string st pkey
    else if collection = "currencies" then read_string st pkey
    else if collection = "instruments" then read_string st pkey
    else if collection = "synthetics" then read_string st pkey
    else if collection = "accounts" then read_list st pkey
    else if collection = "orders" then read_list st pkey
    else if collection = "positions" then read_list st pkey
    else if collection = "actors" then read_string st pkey
    else if collection = "strategies" then read_string st pkey
    else .error (.unsupported "read" collection)

/-- `insert_index`: dispatch on `get_index_key` of the (physical) key; the
membership-set arms read `value[0]`, the mapping-hash arms read `value[0]`
and `value[1]`; out-of-range indexing is a Rust panic. -/
def insert_index (key : String) (value : List Bytes) : OpResult :=
  match get_index_key key with
  | .error e => .err e
  | .ok index_key =>
    if index_key = "index:order_ids" then
      match value with
      | v0 :: _ => .ok [.sadd key v0]
      | [] => .panic .indexOutOfBounds
    else if index_key = "index:order_position" then
      match value with
      | v0 :: v1 :: _ => .ok [.hset key v0 v1]
      | _ => .panic .indexOutOfBounds
    else if index_key = "index:order_client" then
      match value with
      | v0 :: v1 :: _ => .ok [.hset key v0 v1]
      | _ => .panic .indexOutOfBounds
    else if index_key = "index:orders" then
      match value with
      | v0 :: _ => .ok [.sadd key v0]
      | [] => .panic .indexOutOfBounds
    else if index_key = "index:orders_open" then
      match value with
      | v0 :: _ => .ok [.sadd key v0]
      | [] => .panic .indexOutOfBounds
    else if index_key = "index:orders_closed" then
      match value with
      | v0 :: _ => .ok [.sadd key v0]
      | [] => .panic .indexOutOfBounds
    else if index_key = "index:orders_emulated" then
      match value with
      | v0 :: _ => .ok [.sadd key v0]
      | [] => .panic .indexOutOfBounds
    else if index_key = "index:orders_inflight" then
      match value with
      | v0 :: _ => .ok [.sadd key v0]
      | [] => .panic .indexOutOfBounds
    else if index_key = "index:positions" then
      match value with
      | v0 :: _ => .ok [.sadd key v0]
      | [] => .panic .indexOutOfBounds
    else if index_key = "index:positions_open" then
      match value with
      | v0 :: _ => .ok [.sadd key v0]
      | [] => .panic .indexOutOfBounds
    else if index_key = "index:positions_closed" then
      match value with
      | v0 :: _ => .ok [.sadd key v0]
      | [] => .panic .indexOutOfBounds
    else .err (.indexUnknown index_key "insert")

/-- `insert`: `check_slice_not_empty` on the payload first, then dispatch on
the collection; non-index collections use `value[0]` only. -/
def insert (collection key : String) (value : List Bytes) : OpResult :=
  match value with
  | [] => .err (.emptySlice "value")
  | v0 :: rest =>
    if collection = "index" then insert_index key (v0 :: rest)
    else if collection = "general" then .ok [.set key v0]
    else if collection = "currencies" then .ok [.set key v0]
    else if collection = "instruments" then .ok [.set key v0]
    else if collection = "synthetics" then .ok [.set key v0]
    else if collection = "accounts" then .ok [.rpush key v0]
    else if collection = "orders" then .ok [.rpush key v0]
    else if collection = "positions" then .ok [.rpush key v0]
    else if collection = "actors" then .ok [.set key v0]
    else if collection = "strategies" then .ok [.set key v0]
    else if collection = "snapshots" then .ok [.rpush key v0]
    else if collection = "health" then .ok [.set key v0]
    else .err (.unsupported "insert" collection)

/-- `update`: `check_slice_not_empty` first, then only accounts, orders and
positions are supported (`RPUSHX` via `update_list`). -/
def update (collection key : String) (value : List Bytes) : OpResult :=
  match value with
  | [] => .err (.emptySlice "value")
  | v0 :: _ =>
    if collection = "accounts" then .ok [.rpushExists key v0]
    else if collection = "orders" then .ok [.rpushExists key v0]
    else if collection = "positions" then .ok [.rpushExists key v0]
    else .err (.unsupported "update" collection)

/-- `remove_index`: a `None` payload is an error; dispatch on
`get_index_key` of the (physical) key; the removable set variants read
`value[0]` (a panic when the vector is empty). -/
def remove_index (key : String) (value : Option (List Bytes)) : OpResult :=
  match value with
  | none => .err (.emptyPayloadDelete key)
  | some v =>
    match get_index_key key with
    | .error e => .err e
    | .ok index_key =>
      if index_key = "index:orders_open" then
        match v with
        | v0 :: _ => .ok [.srem key v0]
        | [] => .panic .indexOutOfBounds
      else if index_key = "index:orders_closed" then
        match v with
        | v0 :: _ => .ok [.srem key v0]
        | [] => .panic .indexOutOfBounds
      else if index_key = "index:orders_emulated" then
        match v with
        | v0 :: _ => .ok [.srem key v0]
        | [] => .panic .indexOutOfBounds
      else if index_key = "index:orders_inflight" then
        match v with
        | v0 :: _ => .ok [.srem key v0]
        | [] => .panic .indexOutOfBounds
      else if index_key = "index:positions_open" then
        match v with
        | v0 :: _ => .ok [.srem key v0]
        | [] => .panic .indexOutOfBounds
      else if index_key = "index:positions_closed" then
        match v with
        | v0 :: _ => .ok [.srem key v0]
        | [] => .panic .indexOutOfBounds
      else .err (.unsupportedIndexRemove index_key)

/-- `delete`: index, actors and strategies only; the payload may be `None`
(checked inside `remove_index` for the index collection). -/
def delete (collection key : String) (value : Option (List Bytes)) :
    OpResult :=
  if collection = "index" then remove_index key value
  else if collection = "actors" then .ok [.del key]
  else if collection = "strategies" then .ok [.del key]
  else .err (.unsupported "delete" collection)

/-- The per-command body of the `for msg in buffer.drain(..)` loop in
`drain_buffer`: unwrap the key (`expect` panics on `None`), resolve the
collection from the logical key (a failure is logged and the command
skipped), build the physical key, then dispatch on the operation.  The
`Close` arm is `panic!`.  A `None` payload for insert/update is logged and
skipped; for delete it is passed through as an `Option`. -/
def drainCmd (trader_key : String) (msg : DatabaseCommand) : OpResult :=
  match msg.key with
  | none => .panic .nullKey
  | some key =>
    match get_collection_key key with
    | .error e => .err e
    | .ok collection =>
      let pkey := (trader_key.push DELIMITER) ++ key
      match msg.op_type with
      | .insert =>
        match msg.payload with
        | none => .err (.nullPayload "insert")
        | some payload => insert collection pkey payload
      | .update =>
        match msg.payload with
        | none => .err (.nullPayload "update")
        | some payload => update collection pkey payload
      | .delete => delete collection pkey msg.payload
      | .close => .panic .closeDrained

/-- Result of one `drain_buffer` call: the single atomic batch of store
operations built from the whole buffer together with the errors logged for
skipped commands, or a panic that unwound the worker before the batch was
executed. -/
inductive DrainResult
  | ok (batch : List StoreOp) (logged : List DbErr)
  | panicked (m : PanicMsg)
deriving DecidableEq

/-- `drain_buffer`: translate every buffered command in order into the one
pipelined batch; recoverable errors are logged and the command contributes
nothing; a panic aborts the whole drain. -/
def drain_buffer (trader_key : String) :
    List DatabaseCommand → DrainResult
  | [] => .ok [] []
  | msg :: rest =>
    match drainCmd trader_key msg with
    | .panic m => .panicked m
    | .err e =>
      match drain_buffer trader_key rest with
      | .ok batch logged => .ok batch (e :: logged)
      | .panicked m => .panicked m
    | .ok ops =>
      match drain_buffer trader_key rest with
      | .ok batch logged => .ok (ops ++ batch) logged
      | .panicked m => .panicked m

/-- The operations one command contributes to the batch (empty when it is
skipped with a logged error or panics). -/
def cmdOps (trader_key : String) (msg : DatabaseCommand) : List StoreOp :=
  match drainCmd trader_key msg with
  | .ok ops => ops
  | _ => []

/-- Whether translating one command panics. -/
def cmdPanics (trader_key : String) (msg : DatabaseCommand) : Bool :=
  match drainCmd trader_key msg with
  | .panic _ => true
  | _ => false

/-- One iteration of the worker loop in `handle_messages`, abstracted: a
`drainTick` is an iteration where the elapsed time since the last drain
reached the buffer interval (the loop then drains only when the buffer is
non-empty); the other events are the three outcomes of `rx.try_recv()`. -/
inductive WorkerEvent
  | drainTick
  | recvMsg (msg : DatabaseCommand)
  | recvEmpty
  | recvDisconnected

/-- The worker loop of `handle_messages` over a schedule of iteration
events, starting from a given buffer: returns the sequence of buffers
passed to `drain_buffer`, in order (including the final residue drain after
the loop breaks), and whether the loop terminated (a `Close` message or a
disconnected channel).  When the schedule is exhausted without a
terminator the loop is still running: no final drain has happened. -/
def handle_messages : List WorkerEvent → List DatabaseCommand →
    List (List DatabaseCommand) × Bool
  | [], _ => ([], false)
  | .drainTick :: rest, buffer =>
    if buffer = [] then handle_messages rest buffer
    else
      let (drains, fin) := handle_messages rest []
      (buffer :: drains, fin)
  | .recvMsg msg :: rest, buffer =>
    if msg.op_type = .close then
      (if buffer = [] then [] else [buffer], true)
    else handle_messages rest (buffer ++ [msg])
  | .recvEmpty :: rest, buffer => handle_messages rest buffer
  | .recvDisconnected :: _, buffer =>
    (if buffer = [] then [] else [buffer], true)

/-- Whether a schedule contains a terminator: a received `Close` command or
a channel disconnection. -/
def hasTerminator : List WorkerEvent → Bool
  | [] => false
  | .recvDisconnected :: _ => true
  | .recvMsg msg :: rest =>
    if msg.op_type = .close then true else hasTerminator rest
  | .drainTick :: rest => hasTerminator rest
  | .recvEmpty :: rest => hasTerminator rest

/-- The non-`Close` commands the worker receives and buffers before the
first terminator of the schedule, in arrival order. -/
def receivedMsgs : List WorkerEvent → List DatabaseCommand
  | [] => []
  | .recvDisconnected :: _ => []
  | .recvMsg msg :: rest =>
    if msg.op_type = .close then [] else msg :: receivedMsgs rest
  | .drainTick :: rest => receivedMsgs rest
  | .recvEmpty :: rest => receivedMsgs rest

/-- The error one command logs during drain, when it is skipped. -/
def cmdErr (trader_key : String) (msg : DatabaseCommand) : Option DbErr :=
  match drainCmd trader_key msg with
  | .err e => some e
  | _ => none

theorem receivedMsgs_not_close (events : List WorkerEvent)
    (c : DatabaseCommand) (hc : c ∈ receivedMsgs events) :
    c.op_type ≠ DatabaseOperation.close := by
  induction events with
  | nil => simp [receivedMsgs] at hc
  | cons ev rest ih =>
    cases ev with
    | drainTick => exact ih (by simpa [receivedMsgs] using hc)
    | recvEmpty => exact ih (by simpa [receivedMsgs] using hc)
    | recvDisconnected => simp [receivedMsgs] at hc
    | recvMsg msg =>
      by_cases h : msg.op_type = DatabaseOperation.close
      · simp [receivedMsgs, h] at hc
      · simp only [receivedMsgs, if_neg h, List.mem_cons] at hc
        rcases hc with rfl | hc
        · exact h
        · exact ih hc

theorem handle_messages_terminated (events : List WorkerEvent) :
    ∀ buffer : List DatabaseCommand, hasTerminator events = true →
    (handle_messages events buffer).2 = true ∧
      ((handle_messages events buffer).1).flatten =
        buffer ++ receivedMsgs events := by
  induction events with
  | nil => intro buffer h; simp [hasTerminator] at h
  | cons ev rest ih =>
    intro buffer h
    cases ev with
    | drainTick =>
      rw [hasTerminator] at h
      by_cases hb : buffer = []
      · simpa [handle_messages, hb, receivedMsgs] using ih buffer h
      · have := ih [] h
        simp only [handle_messages, if_neg hb, receivedMsgs]
        constructor
        · simpa using this.1
        · simp only [List.flatten_cons]
          rw [this.2]
          simp
    | recvEmpty =>
      rw [hasTerminator] at h
      simpa [handle_messages, receivedMsgs] using ih buffer h
    | recvDisconnected =>
      by_cases hb : buffer = [] <;>
        simp [handle_messages, receivedMsgs, hb]
    | recvMsg msg =>
      by_cases hc : msg.op_type = DatabaseOperation.close
      · by_cases hb : buffer = [] <;>
          simp [handle_messages, receivedMsgs, hb, hc]
      · rw [hasTerminator, if_neg hc] at h
        have := ih (buffer ++ [msg]) h
        simp only [handle_messages, if_neg hc, receivedMsgs]
        refine ⟨this.1, ?_⟩
        rw [this.2]
        simp

/-- Every command inside every drained buffer satisfies any property that
holds of the initial buffer and of every buffered (non-`Close`) received
message. -/
theorem handle_messages_drains_inv (P : DatabaseCommand → Prop)
    (events : List WorkerEvent) :
    ∀ buffer : List DatabaseCommand, (∀ c ∈ buffer, P c) →
    (∀ c, WorkerEvent.recvMsg c ∈ events →
      c.op_type ≠ DatabaseOperation.close → P c) →
    ∀ b ∈ (handle_messages events buffer).1, ∀ c ∈ b, P c := by
  induction events with
  | nil => intro buffer _ _ b hb; simp [handle_messages] at hb
  | cons ev rest ih =>
    intro buffer hbuf hev b hb
    cases ev with
    | drainTick =>
      by_cases hemp : buffer = []
      · rw [handle_messages, if_pos hemp] at hb
        exact ih buffer hbuf (fun c hc => hev c (List.mem_cons_of_mem _ hc)) b hb
      · rw [handle_messages, if_neg hemp] at hb
        simp only [List.mem_cons] at hb
        rcases hb with rfl | hb
        · exact hbuf
        · exact ih [] (by simp)
            (fun c hc => hev c (List.mem_cons_of_mem _ hc)) b hb
    | recvEmpty =>
      rw [handle_messages] at hb
      exact ih buffer hbuf (fun c hc => hev c (List.mem_cons_of_mem _ hc)) b hb
    | recvDisconnected =>
      rw [handle_messages] at hb
      by_cases hemp : buffer = []
      · simp [hemp] at hb
      · simp only [if_neg hemp, List.mem_singleton] at hb
        subst hb; exact hbuf
    | recvMsg msg =>
      by_cases hc : msg.op_type = DatabaseOperation.close
      · rw [handle_messages, if_pos hc] at hb
        by_cases hemp : buffer = []
        · simp [hemp] at hb
        · simp only [if_neg hemp, List.mem_singleton] at hb
          subst hb; exact hbuf
      · rw [handle_messages, if_neg hc] at hb
        refine ih (buffer ++ [msg]) ?_
          (fun c hcm => hev c (List.mem_cons_of_mem _ hcm)) b hb
        intro c hcmem
        rcases List.mem_append.mp hcmem with h | h
        · exact hbuf c h
        · rw [List.mem_singleton] at h
          subst h
          exact hev c (List.mem_cons_self _ _) hc

/-- Characterization of a panic-free drain: the batch is the concatenation
of each command's contributed operations, and the logged errors are those
of the skipped commands, in order. -/
theorem drain_buffer_eq (trader_key : String) :
    ∀ buffer : List DatabaseCommand,
    (∀ c ∈ buffer, cmdPanics trader_key c = false) →
    drain_buffer trader_key buffer =
      .ok (buffer.flatMap (cmdOps trader_key))
        (buffer.filterMap (cmdErr trader_key)) := by
  intro buffer
  induction buffer with
  | nil => intro _; simp [drain_buffer]
  | cons msg rest ih =>
    intro h
    have hmsg := h msg (List.mem_cons_self _ _)
    have hrest := ih (fun c hc => h c (List.mem_cons_of_mem _ hc))
    rw [drain_buffer, hrest]
    unfold cmdPanics at hmsg
    cases hdc : drainCmd trader_key msg with
    | panic m => rw [hdc] at hmsg; simp at hmsg
    | err e => simp [List.flatMap_cons, List.filterMap_cons, cmdOps, cmdErr, hdc]
    | ok ops => simp [List.flatMap_cons, List.filterMap_cons, cmdOps, cmdErr, hdc]

/-- Results whose only possible panic is the out-of-bounds slice index. -/
def OnlyOobPanic (r : OpResult) : Prop :=
  ∀ m, r = OpResult.panic m → m = PanicMsg.indexOutOfBounds

theorem onlyOob_ite {c : Prop} {inst : Decidable c} {a b : OpResult}
    (ha : OnlyOobPanic a) (hb : OnlyOobPanic b) :
    OnlyOobPanic (@ite _ c inst a b) := by
  by_cases hc : c
  · rw [if_pos hc]; exact ha
  · rw [if_neg hc]; exact hb

theorem onlyOob_ok (l : List StoreOp) : OnlyOobPanic (.ok l) :=
  fun _ hm => OpResult.noConfusion hm

theorem onlyOob_err (e : DbErr) : OnlyOobPanic (.err e) :=
  fun _ hm => OpResult.noConfusion hm

theorem onlyOob_oob : OnlyOobPanic (.panic .indexOutOfBounds) :=
  fun _ hm => (OpResult.panic.inj hm).symm

theorem insert_index_onlyOob (key : String) (v : List Bytes) :
    OnlyOobPanic (insert_index key v) := by
  rcases v with _ | ⟨v0, _ | ⟨v1, rest⟩⟩ <;>
  · unfold insert_index
    cases hik : get_index_key key with
    | error e => exact onlyOob_err e
    | ok ik =>
      repeat'
        first
          | exact onlyOob_oob
          | exact onlyOob_ok _
          | exact onlyOob_err _
          | apply onlyOob_ite

theorem insert_onlyOob (collection key : String) (v : List Bytes) :
    OnlyOobPanic (insert collection key v) := by
  rcases v with _ | ⟨v0, rest⟩
  · exact onlyOob_err _
  · unfold insert
    repeat'
      first
        | exact insert_index_onlyOob _ _
        | exact onlyOob_ok _
        | exact onlyOob_err _
        | apply onlyOob_ite

theorem update_onlyOob (collection key : String) (v : List Bytes) :
    OnlyOobPanic (update collection key v) := by
  rcases v with _ | ⟨v0, rest⟩
  · exact onlyOob_err _
  · unfold update
    repeat'
      first
        | exact onlyOob_ok _
        | exact onlyOob_err _
        | apply onlyOob_ite

theorem remove_index_onlyOob (key : String) (v : Option (List Bytes)) :
    OnlyOobPanic (remove_index key v) := by
  rcases v with _ | (_ | ⟨v0, rest⟩)
  · exact onlyOob_err _
  all_goals
  · unfold remove_index
    cases hik : get_index_key key with
    | error e => exact onlyOob_err e
    | ok ik =>
      repeat'
        first
          | exact onlyOob_oob
          | exact onlyOob_ok _
          | exact onlyOob_err _
          | apply onlyOob_ite

theorem delete_onlyOob (collection key : String) (v : Option (List Bytes)) :
    OnlyOobPanic (delete collection key v) := by
  unfold delete
  repeat'
    first
      | exact remove_index_onlyOob _ _
      | exact onlyOob_ok _
      | exact onlyOob_err _
      | apply onlyOob_ite

/-- Which panic a drained command can raise: the null-key `expect` fires
only on a `None` key, the `Close` arm only on a `Close` command, and the
only other panic site is slice indexing. -/
theorem drainCmd_panic_cases (trader_key : String) (c : DatabaseCommand)
    (m : PanicMsg) (h : drainCmd trader_key c = .panic m) :
    (m = PanicMsg.nullKey ∧ c.key = none) ∨
    (m = PanicMsg.closeDrained ∧ c.op_type = DatabaseOperation.close) ∨
    m = PanicMsg.indexOutOfBounds := by
  obtain ⟨op, ckey, cpayload⟩ := c
  cases ckey with
  | none =>
    simp only [drainCmd] at h
    exact Or.inl ⟨by simpa using h.symm, rfl⟩
  | some key =>
    cases hcol : get_collection_key key with
    | error e =>
      simp only [drainCmd, hcol] at h
      exact absurd h (fun hh => OpResult.noConfusion hh)
    | ok collection =>
      cases op with
      | close =>
        simp only [drainCmd, hcol] at h
        exact Or.inr (Or.inl ⟨by simpa using h.symm, rfl⟩)
      | insert =>
        cases cpayload with
        | none =>
          simp only [drainCmd, hcol] at h
          exact absurd h (fun hh => OpResult.noConfusion hh)
        | some payload =>
          simp only [drainCmd, hcol] at h
          exact Or.inr (Or.inr (insert_onlyOob _ _ _ m h))
      | update =>
        cases cpayload with
        | none =>
          simp only [drainCmd, hcol] at h
          exact absurd h (fun hh => OpResult.noConfusion hh)
        | some payload =>
          simp only [drainCmd, hcol] at h
          exact Or.inr (Or.inr (update_onlyOob _ _ _ m h))
      | delete =>
        simp only [drainCmd, hcol] at h
        exact Or.inr (Or.inr (delete_onlyOob _ _ _ m h))

/-- C8: trader-key construction: with both flags true, trader "T-1" and
instance "abc" give physical prefix "trader-T-1:abc"; with both flags false
or absent, exactly "T-1"; in general the prefix is the optional literal
"trader-", then the trader id, then optionally the delimiter and the
instance id. -/
theorem claim_C8_trader_key (trader_id instance_id : String)
    (config : CacheConfig) :
    get_trader_key "T-1" "abc" ⟨some true, some true⟩ = "trader-T-1:abc" ∧
    get_trader_key "T-1" "abc" ⟨some false, some false⟩ = "T-1" ∧
    get_trader_key "T-1" "abc" ⟨none, none⟩ = "T-1" ∧
    get_trader_key trader_id instance_id config =
      (if config.trader_pfx_flag = some true then "trader-" else "") ++
        trader_id ++
        (if config.instance_id_flag = some true then ":" ++ instance_id
         else "") := by
  refine ⟨rfl, rfl, rfl, ?_⟩
  unfold get_trader_key
  by_cases h1 : config.trader_pfx_flag = some true <;>
    by_cases h2 : config.instance_id_flag = some true <;>
      simp only [h1, h2, if_true, if_false, ite_true, ite_false,
        eq_self_iff_true] <;>
      apply String.ext <;>
      simp [String.push, String.append, DELIMITER, List.append_assoc]

/-- C1: the index name that selects the relationship structure is computed
by `get_index_key` from the PHYSICAL (trader-prefixed) key, not the logical
key: with a delimiter-free trader prefix such as "T-1" the remainder after
the prefix is the full logical key and dispatch succeeds, but with the
prefix "trader-T-1:abc" (use_trader_prefix and use_instance_id both set,
instance id "abc") the same logical key "index:orders_open" resolves to the
unknown index name "abc:index:orders_open" and every index read and insert
fails — the trader prefix does change which structure is selected. -/
theorem claim_C1_index_dispatch_prefix_sensitivity :
    RedisCacheDatabase.read "trader-T-1:abc" (fun _ => none)
        "index:orders_open" =
      .error (.indexUnknown "abc:index:orders_open" "read") ∧
    RedisCacheDatabase.read "T-1" (fun _ => none) "index:orders_open" =
      .ok [] ∧
    drainCmd "trader-T-1:abc"
        (DatabaseCommand.new .insert "index:orders_open" (some [[49]])) =
      .err (.indexUnknown "abc:index:orders_open" "insert") ∧
    drainCmd "T-1"
        (DatabaseCommand.new .insert "index:orders_open" (some [[49]])) =
      .ok [.sadd "T-1:index:orders_open" [49]] :=
  ⟨rfl, rfl, rfl, rfl⟩

/-- C2 counterexample: a mapping-hash insert with a single payload segment
is not rejected with a payload error — it panics on `value[1]`; and a
membership-set insert with two segments is not rejected either — it
silently uses the first segment and constructs a store operation. -/
theorem claim_C2_counterexample :
    drainCmd "T-1"
        (DatabaseCommand.new .insert "index:order_position" (some [[49]])) =
      .panic .indexOutOfBounds ∧
    drainCmd "T-1"
        (DatabaseCommand.new .insert "index:order_ids"
          (some [[49], [50]])) =
      .ok [.sadd "T-1:index:order_ids" [49]] :=
  ⟨rfl, rfl⟩

/-- C2 amended: no payload-arity check exists before constructing the
store operation.  A membership-set insert or removal uses exactly the first
payload segment, ignoring extras; a mapping-hash insert uses the first two;
a mapping-hash insert with fewer than two segments, or a removal with an
empty payload vector, panics with an index-out-of-bounds instead of a
payload error.  The only pre-checks are payload non-emptiness for inserts
(`check_slice_not_empty`) and payload presence (`Some`) for removals. -/
theorem claim_C2_amended (v0 v1 : Bytes) (rest : List Bytes) :
    insert "index" "T-1:index:order_ids" (v0 :: rest) =
      .ok [.sadd "T-1:index:order_ids" v0] ∧
    insert "index" "T-1:index:order_position" (v0 :: v1 :: rest) =
      .ok [.hset "T-1:index:order_position" v0 v1] ∧
    insert "index" "T-1:index:order_position" [v0] =
      .panic .indexOutOfBounds ∧
    insert "index" "T-1:index:order_position" [] =
      .err (.emptySlice "value") ∧
    remove_index "T-1:index:orders_open" (some (v0 :: rest)) =
      .ok [.srem "T-1:index:orders_open" v0] ∧
    remove_index "T-1:index:orders_open" (some []) =
      .panic .indexOutOfBounds ∧
    remove_index "T-1:index:orders_open" none =
      .err (.emptyPayloadDelete "T-1:index:orders_open") :=
  ⟨rfl, rfl, rfl, rfl, rfl, rfl, rfl⟩

/-- C10: a mapping-hash read returns exactly one payload segment holding
the JSON serialization of the whole field-to-value mapping — the two bytes
"\x7b\x7d" (123, 125) when the mapping is absent — while a membership-set
read returns one segment per member; the order_position and order_client
index reads dispatch to the hash read. -/
theorem claim_C10_hash_read_single_segment (st : Store) (key : String) :
    (st key = none →
      read_hset st key = .ok [strBytes (jsonOfPairs [])] ∧
      strBytes (jsonOfPairs []) = [123, 125]) ∧
    (∀ pairs, st key = some (.hash pairs) →
      read_hset st key = .ok [strBytes (jsonOfPairs pairs)]) ∧
    (∀ members, st key = some (.set members) →
      read_set st key = .ok members) ∧
    (∀ st2 : Store,
      RedisCacheDatabase.read "T-1" st2 "index:order_position" =
        read_hset st2 "T-1:index:order_position") ∧
    (∀ st2 : Store,
      RedisCacheDatabase.read "T-1" st2 "index:order_client" =
        read_hset st2 "T-1:index:order_client") := by
  refine ⟨?_, ?_, ?_, fun st2 => rfl, fun st2 => rfl⟩
  · intro h
    exact ⟨by simp only [read_hset, h], by decide⟩
  · intro pairs h
    simp only [read_hset, h]
  · intro members h
    simp only [read_set, h]

/-- C10 witness at the empty store. -/
theorem claim_C10_witness :
    ((fun _ => none : Store) "k" = none) ∧
    (read_hset (fun _ => none) "k" = .ok [strBytes (jsonOfPairs [])] ∧
      strBytes (jsonOfPairs []) = [123, 125]) :=
  ⟨rfl, (claim_C10_hash_read_single_segment (fun _ => none) "k").1 rfl⟩

/-- C7 counterexample: reading the absent mapping-hash index
order_position returns the one-segment sequence [\x7b\x7d] (bytes 123,
125), not the empty sequence the claim requires for every read type. -/
theorem claim_C7_counterexample :
    RedisCacheDatabase.read "T-1" (fun _ => none) "index:order_position" =
      .ok [[123, 125]] ∧ ([[123, 125]] : List Bytes) ≠ [] :=
  ⟨rfl, by decide⟩

/-- C7 amended: scalar-string, list and membership-set reads return an
empty segment sequence (not an error) when the stored value is absent or
empty; a mapping-hash read instead returns exactly one segment holding the
JSON serialization of the mapping ("\x7b\x7d" when absent); none of the
four errors on an absent value. -/
theorem claim_C7_amended (st : Store) (key : String) :
    (st key = none →
      read_string st key = .ok [] ∧ read_set st key = .ok [] ∧
      read_list st key = .ok [] ∧
      read_hset st key = .ok [strBytes (jsonOfPairs [])]) ∧
    (st key = some (.str []) → read_string st key = .ok []) ∧
    (st key = some (.set []) → read_set st key = .ok []) ∧
    (st key = some (.list []) → read_list st key = .ok []) ∧
    (st key = some (.hash []) →
      read_hset st key = .ok [strBytes (jsonOfPairs [])]) ∧
    RedisCacheDatabase.read "T-1" (fun _ => none) "general:a" = .ok [] ∧
    RedisCacheDatabase.read "T-1" (fun _ => none) "orders:O-1" = .ok [] ∧
    RedisCacheDatabase.read "T-1" (fun _ => none) "index:orders_open" =
      .ok [] := by
  refine ⟨?_, ?_, ?_, ?_, ?_, rfl, rfl, rfl⟩
  · intro h
    exact ⟨by simp only [read_string, h], by simp only [read_set, h],
      by simp only [read_list, h], by simp only [read_hset, h]⟩
  · intro h; simp only [read_string, h, ite_true, if_pos]
  · intro h; simp only [read_set, h]
  · intro h; simp only [read_list, h]
  · intro h; simp only [read_hset, h]

/-- C7 witness at the empty store. -/
theorem claim_C7_amended_witness :
    ((fun _ => none : Store) "k" = none) ∧
    (read_string (fun _ => none) "k" = .ok [] ∧
      read_set (fun _ => none) "k" = .ok [] ∧
      read_list (fun _ => none) "k" = .ok [] ∧
      read_hset (fun _ => none) "k" = .ok [strBytes (jsonOfPairs [])]) :=
  ⟨rfl, (claim_C7_amended (fun _ => none) "k").1 rfl⟩

/-- C4: with a terminating schedule (a received Close, or disconnection),
the worker terminates, the concatenation of all drained buffers is exactly
the sequence of non-Close commands received before the terminator (so
nothing buffered is discarded without a drain attempt, and the final
residue drain happens), and no drained buffer ever contains a Close
command (Close is intercepted before buffering). -/
theorem claim_C4_close_semantics (events : List WorkerEvent)
    (hterm : hasTerminator events = true) :
    (handle_messages events []).2 = true ∧
    ((handle_messages events []).1).flatten = receivedMsgs events ∧
    ∀ b ∈ (handle_messages events []).1, ∀ c ∈ b,
      c.op_type ≠ DatabaseOperation.close := by
  obtain ⟨h1, h2⟩ := handle_messages_terminated events [] hterm
  refine ⟨h1, by simpa using h2, ?_⟩
  exact handle_messages_drains_inv
    (fun c => c.op_type ≠ DatabaseOperation.close) events []
    (by simp) (fun c _ h => h)

/-- C4 witness: one buffered insert followed by a Close. -/
theorem claim_C4_witness :
    hasTerminator
      [WorkerEvent.recvMsg
        (DatabaseCommand.new .insert "orders:O-1" (some [[1]])),
       WorkerEvent.recvMsg DatabaseCommand.closeCommand] = true ∧
    ((handle_messages
      [WorkerEvent.recvMsg
        (DatabaseCommand.new .insert "orders:O-1" (some [[1]])),
       WorkerEvent.recvMsg DatabaseCommand.closeCommand] []).2 = true ∧
    ((handle_messages
      [WorkerEvent.recvMsg
        (DatabaseCommand.new .insert "orders:O-1" (some [[1]])),
       WorkerEvent.recvMsg DatabaseCommand.closeCommand] []).1).flatten =
      receivedMsgs
        [WorkerEvent.recvMsg
          (DatabaseCommand.new .insert "orders:O-1" (some [[1]])),
         WorkerEvent.recvMsg DatabaseCommand.closeCommand] ∧
    ∀ b ∈ (handle_messages
      [WorkerEvent.recvMsg
        (DatabaseCommand.new .insert "orders:O-1" (some [[1]])),
       WorkerEvent.recvMsg DatabaseCommand.closeCommand] []).1, ∀ c ∈ b,
      c.op_type ≠ DatabaseOperation.close) :=
  ⟨by decide, claim_C4_close_semantics _ (by decide)⟩

/-- C5: a command whose translation fails with a recoverable error (bad
key format, unsupported collection/operation or index/operation) is logged
and excluded, and the rest of the buffer is still translated into the one
atomic batch: the drain of pre ++ bad :: post yields exactly the
operations of pre and post, with the bad command's error among the logged
errors. -/
theorem claim_C5_bad_command_skipped (trader_key : String)
    (pre post : List DatabaseCommand) (bad : DatabaseCommand) (e : DbErr)
    (hnp : ∀ c ∈ pre ++ bad :: post, cmdPanics trader_key c = false)
    (hbad : drainCmd trader_key bad = .err e) :
    drain_buffer trader_key (pre ++ bad :: post) =
      .ok ((pre ++ post).flatMap (cmdOps trader_key))
        ((pre ++ bad :: post).filterMap (cmdErr trader_key)) ∧
    e ∈ (pre ++ bad :: post).filterMap (cmdErr trader_key) ∧
    cmdOps trader_key bad = [] := by
  have hbadOps : cmdOps trader_key bad = [] := by
    simp [cmdOps, hbad]
  have hlist : (pre ++ bad :: post).flatMap (cmdOps trader_key) =
      (pre ++ post).flatMap (cmdOps trader_key) := by
    simp [hbadOps]
  refine ⟨?_, ?_, hbadOps⟩
  · rw [drain_buffer_eq trader_key (pre ++ bad :: post) hnp, hlist]
  · exact List.mem_filterMap.mpr
      ⟨bad, by simp, by simp [cmdErr, hbad]⟩

/-- C5 witness: a good insert, a malformed key, a good insert again. -/
theorem claim_C5_witness :
    (∀ c ∈ [DatabaseCommand.new .insert "orders:O-1" (some [[1]]),
        DatabaseCommand.new .insert "nodelimiter" (some [[2]]),
        DatabaseCommand.new .insert "orders:O-2" (some [[3]])],
      cmdPanics "T-1" c = false) ∧
    drainCmd "T-1" (DatabaseCommand.new .insert "nodelimiter" (some [[2]])) =
      .err (.keyFormat "nodelimiter") ∧
    (drain_buffer "T-1"
        ([DatabaseCommand.new .insert "orders:O-1" (some [[1]])] ++
          DatabaseCommand.new .insert "nodelimiter" (some [[2]]) ::
            [DatabaseCommand.new .insert "orders:O-2" (some [[3]])]) =
      .ok (([DatabaseCommand.new .insert "orders:O-1" (some [[1]])] ++
          [DatabaseCommand.new .insert "orders:O-2" (some [[3]])]).flatMap
          (cmdOps "T-1"))
        (([DatabaseCommand.new .insert "orders:O-1" (some [[1]])] ++
          DatabaseCommand.new .insert "nodelimiter" (some [[2]]) ::
            [DatabaseCommand.new .insert "orders:O-2" (some [[3]])]).filterMap
          (cmdErr "T-1")) ∧
    DbErr.keyFormat "nodelimiter" ∈
      ([DatabaseCommand.new .insert "orders:O-1" (some [[1]])] ++
        DatabaseCommand.new .insert "nodelimiter" (some [[2]]) ::
          [DatabaseCommand.new .insert "orders:O-2" (some [[3]])]).filterMap
        (cmdErr "T-1") ∧
    cmdOps "T-1" (DatabaseCommand.new .insert "nodelimiter" (some [[2]])) =
      []) :=
  ⟨by decide, by decide,
    claim_C5_bad_command_skipped "T-1" _ _ _ _ (by decide) (by decide)⟩

/-- C9: when every received message is built by the public
insert/update/delete constructors (which always set a `Some` key) or is
the Close command, every command in every drained buffer has a non-null
key and a non-Close operation, so neither the null-key `expect` panic nor
the Close-arm panic of `drain_buffer` can fire. -/
theorem claim_C9_no_drain_panic (trader_key : String)
    (events : List WorkerEvent)
    (happi : ∀ c, WorkerEvent.recvMsg c ∈ events →
      (∃ op key payload,
        (op = DatabaseOperation.insert ∨ op = DatabaseOperation.update ∨
          op = DatabaseOperation.delete) ∧
        c = DatabaseCommand.new op key payload) ∨
      c = DatabaseCommand.closeCommand) :
    ∀ b ∈ (handle_messages events []).1, ∀ c ∈ b,
      c.key ≠ none ∧ c.op_type ≠ DatabaseOperation.close ∧
      drainCmd trader_key c ≠ .panic .nullKey ∧
      drainCmd trader_key c ≠ .panic .closeDrained := by
  have hinv := handle_messages_drains_inv
    (fun c => c.key ≠ none ∧ c.op_type ≠ DatabaseOperation.close) events []
    (by simp)
    (by
      intro c hc hnc
      rcases happi c hc with ⟨op, k, p, hops, rfl⟩ | rfl
      · refine ⟨by simp [DatabaseCommand.new], ?_⟩
        rcases hops with rfl | rfl | rfl <;> simp [DatabaseCommand.new]
      · exact absurd rfl hnc)
  intro b hb c hc
  obtain ⟨hk, hop⟩ := hinv b hb c hc
  refine ⟨hk, hop, ?_, ?_⟩
  · intro hpan
    rcases drainCmd_panic_cases trader_key c _ hpan with
      ⟨_, hkey⟩ | ⟨hm, _⟩ | hm
    · exact hk hkey
    · exact PanicMsg.noConfusion hm
    · exact PanicMsg.noConfusion hm
  · intro hpan
    rcases drainCmd_panic_cases trader_key c _ hpan with
      ⟨hm, _⟩ | ⟨_, hcl⟩ | hm
    · exact PanicMsg.noConfusion hm
    · exact hop hcl
    · exact PanicMsg.noConfusion hm

/-- C9 witness: an API insert then the Close command. -/
theorem claim_C9_witness :
    (∀ c, WorkerEvent.recvMsg c ∈
        [WorkerEvent.recvMsg
          (DatabaseCommand.new .insert "orders:O-1" (some [[1]])),
         WorkerEvent.recvMsg DatabaseCommand.closeCommand] →
      (∃ op key payload,
        (op = DatabaseOperation.insert ∨ op = DatabaseOperation.update ∨
          op = DatabaseOperation.delete) ∧
        c = DatabaseCommand.new op key payload) ∨
      c = DatabaseCommand.closeCommand) ∧
    (∀ b ∈ (handle_messages
        [WorkerEvent.recvMsg
          (DatabaseCommand.new .insert "orders:O-1" (some [[1]])),
         WorkerEvent.recvMsg DatabaseCommand.closeCommand] []).1, ∀ c ∈ b,
      c.key ≠ none ∧ c.op_type ≠ DatabaseOperation.close ∧
      drainCmd "T-1" c ≠ .panic .nullKey ∧
      drainCmd "T-1" c ≠ .panic .closeDrained) := by
  have happi : ∀ c, WorkerEvent.recvMsg c ∈
      [WorkerEvent.recvMsg
        (DatabaseCommand.new .insert "orders:O-1" (some [[1]])),
       WorkerEvent.recvMsg DatabaseCommand.closeCommand] →
      (∃ op key payload,
        (op = DatabaseOperation.insert ∨ op = DatabaseOperation.update ∨
          op = DatabaseOperation.delete) ∧
        c = DatabaseCommand.new op key payload) ∨
      c = DatabaseCommand.closeCommand := by
    intro c hc
    simp only [List.mem_cons, List.not_mem_nil, or_false] at hc
    rcases hc with hc | hc
    · cases hc
      exact Or.inl ⟨.insert, "orders:O-1", some [[1]], Or.inl rfl, rfl⟩
    · cases hc
      exact Or.inr rfl
  exact ⟨happi, claim_C9_no_drain_panic "T-1" _ happi⟩

/-- C3: every collection/operation pair outside the support table fails
with the unsupported-operation error naming the operation and the
collection, and contributes no store operation to the batch: read is
unsupported outside the ten readable collections (so on snapshots, health
and unknown collections), insert outside the twelve known collections,
update outside accounts/orders/positions, delete outside
index/actors/strategies. -/
theorem claim_C3_unsupported_combinations
    (trader_key key collection rest2 : String) (st : Store) (v0 : Bytes)
    (vs : List Bytes) (payload : Option (List Bytes))
    (hkey : split_once key DELIMITER = some (collection, rest2)) :
    (collection ∉ ["index", "general", "currencies", "instruments",
        "synthetics", "accounts", "orders", "positions", "actors",
        "strategies"] →
      RedisCacheDatabase.read trader_key st key =
        .error (.unsupported "read" collection)) ∧
    (collection ∉ ["index", "general", "currencies", "instruments",
        "synthetics", "accounts", "orders", "positions", "actors",
        "strategies", "snapshots", "health"] →
      drainCmd trader_key ⟨.insert, some key, some (v0 :: vs)⟩ =
        .err (.unsupported "insert" collection) ∧
      cmdOps trader_key ⟨.insert, some key, some (v0 :: vs)⟩ = []) ∧
    (collection ∉ ["accounts", "orders", "positions"] →
      drainCmd trader_key ⟨.update, some key, some (v0 :: vs)⟩ =
        .err (.unsupported "update" collection) ∧
      cmdOps trader_key ⟨.update, some key, some (v0 :: vs)⟩ = []) ∧
    (collection ∉ ["index", "actors", "strategies"] →
      drainCmd trader_key ⟨.delete, some key, payload⟩ =
        .err (.unsupported "delete" collection) ∧
      cmdOps trader_key ⟨.delete, some key, payload⟩ = []) := by
  have hcol : get_collection_key key = .ok collection := by
    simp only [get_collection_key, hkey]
  refine ⟨?_, ?_, ?_, ?_⟩
  · intro h
    simp only [List.mem_cons, List.not_mem_nil, or_false, not_or] at h
    obtain ⟨h1, h2, h3, h4, h5, h6, h7, h8, h9, h10⟩ := h
    simp only [RedisCacheDatabase.read, hcol]
    rw [if_neg h1, if_neg h2, if_neg h3, if_neg h4, if_neg h5, if_neg h6,
      if_neg h7, if_neg h8, if_neg h9, if_neg h10]
  · intro h
    simp only [List.mem_cons, List.not_mem_nil, or_false, not_or] at h
    obtain ⟨h1, h2, h3, h4, h5, h6, h7, h8, h9, h10, h11, h12⟩ := h
    have hd : drainCmd trader_key ⟨.insert, some key, some (v0 :: vs)⟩ =
        .err (.unsupported "insert" collection) := by
      simp only [drainCmd, hcol, insert]
      rw [if_neg h1, if_neg h2, if_neg h3, if_neg h4, if_neg h5, if_neg h6,
        if_neg h7, if_neg h8, if_neg h9, if_neg h10, if_neg h11, if_neg h12]
    exact ⟨hd, by simp [cmdOps, hd]⟩
  · intro h
    simp only [List.mem_cons, List.not_mem_nil, or_false, not_or] at h
    obtain ⟨h1, h2, h3⟩ := h
    have hd : drainCmd trader_key ⟨.update, some key, some (v0 :: vs)⟩ =
        .err (.unsupported "update" collection) := by
      simp only [drainCmd, hcol, update]
      rw [if_neg h1, if_neg h2, if_neg h3]
    exact ⟨hd, by simp [cmdOps, hd]⟩
  · intro h
    simp only [List.mem_cons, List.not_mem_nil, or_false, not_or] at h
    obtain ⟨h1, h2, h3⟩ := h
    have hd : drainCmd trader_key ⟨.delete, some key, payload⟩ =
        .err (.unsupported "delete" collection) := by
      simp only [drainCmd, hcol, delete]
      rw [if_neg h1, if_neg h2, if_neg h3]
    exact ⟨hd, by simp [cmdOps, hd]⟩

/-- C3 witness: reads on snapshots, updates on general, deletes on
orders, inserts on an unknown collection. -/
theorem claim_C3_witness :
    split_once "snapshots:x" DELIMITER = some ("snapshots", "x") ∧
    ("snapshots" ∉ (["index", "general", "currencies", "instruments",
        "synthetics", "accounts", "orders", "positions", "actors",
        "strategies"] : List String) →
      RedisCacheDatabase.read "T-1" (fun _ => none) "snapshots:x" =
        .error (.unsupported "read" "snapshots")) ∧
    RedisCacheDatabase.read "T-1" (fun _ => none) "snapshots:x" =
      .error (.unsupported "read" "snapshots") ∧
    drainCmd "T-1" ⟨.update, some "general:a", some [[1]]⟩ =
      .err (.unsupported "update" "general") ∧
    drainCmd "T-1" ⟨.delete, some "orders:O-1", some [[1]]⟩ =
      .err (.unsupported "delete" "orders") ∧
    drainCmd "T-1" ⟨.insert, some "unknowncol:a", some [[1]]⟩ =
      .err (.unsupported "insert" "unknowncol") := by
  refine ⟨by decide,
    (claim_C3_unsupported_combinations "T-1" "snapshots:x" "snapshots" "x"
      (fun _ => none) [1] [] none (by decide)).1, ?_, ?_, ?_, ?_⟩
  · exact (claim_C3_unsupported_combinations "T-1" "snapshots:x" "snapshots"
      "x" (fun _ => none) [1] [] none (by decide)).1 (by decide)
  · exact ((claim_C3_unsupported_combinations "T-1" "general:a" "general"
      "a" (fun _ => none) [1] [] none (by decide)).2.2.1 (by decide)).1
  · exact ((claim_C3_unsupported_combinations "T-1" "orders:O-1" "orders"
      "O-1" (fun _ => none) [1] [] (some [[1]]) (by decide)).2.2.2
        (by decide)).1
  · exact ((claim_C3_unsupported_combinations "T-1" "unknowncol:a"
      "unknowncol" "a" (fun _ => none) [1] [] none (by decide)).2.1
        (by decide)).1

/-- C6: an Insert or Update command whose payload is absent or empty never
contributes a store operation and always produces an error (never a silent
no-op): for any key it is skipped with some logged error, and when the key
is well-formed the error is specifically the null-payload or empty-slice
payload error. -/
theorem claim_C6_empty_payload_rejected (trader_key key : String)
    (payload : Option (List Bytes)) (op : DatabaseOperation)
    (hop : op = DatabaseOperation.insert ∨ op = DatabaseOperation.update)
    (hpay : payload = none ∨ payload = some []) :
    (∃ e, drainCmd trader_key ⟨op, some key, payload⟩ = .err e) ∧
    cmdOps trader_key ⟨op, some key, payload⟩ = [] ∧
    (∀ collection rest2,
      split_once key DELIMITER = some (collection, rest2) →
      drainCmd trader_key ⟨op, some key, payload⟩ =
        .err (.nullPayload
          (if op = DatabaseOperation.insert then "insert" else "update")) ∨
      drainCmd trader_key ⟨op, some key, payload⟩ =
        .err (.emptySlice "value")) := by
  have hmain : (∃ e, drainCmd trader_key ⟨op, some key, payload⟩ = .err e) ∧
      (∀ collection rest2,
        split_once key DELIMITER = some (collection, rest2) →
        drainCmd trader_key ⟨op, some key, payload⟩ =
          .err (.nullPayload
            (if op = DatabaseOperation.insert then "insert" else "update")) ∨
        drainCmd trader_key ⟨op, some key, payload⟩ =
          .err (.emptySlice "value")) := by
    cases hsp : split_once key DELIMITER with
    | none =>
      have hcol : get_collection_key key = .error (.keyFormat key) := by
        simp only [get_collection_key, hsp]
      rcases hop with rfl | rfl <;>
        exact ⟨⟨.keyFormat key, by simp only [drainCmd, hcol]⟩,
          fun collection rest2 hc => Option.noConfusion hc⟩
    | some pr =>
      obtain ⟨col, r⟩ := pr
      have hcol : get_collection_key key = .ok col := by
        simp only [get_collection_key, hsp]
      rcases hop with rfl | rfl <;> rcases hpay with rfl | rfl
      · exact ⟨⟨.nullPayload "insert", by simp only [drainCmd, hcol]⟩,
          fun collection rest2 _ =>
            Or.inl (by simp only [drainCmd, hcol]; rfl)⟩
      · exact ⟨⟨.emptySlice "value",
            by simp only [drainCmd, hcol, insert]⟩,
          fun collection rest2 _ =>
            Or.inr (by simp only [drainCmd, hcol, insert])⟩
      · exact ⟨⟨.nullPayload "update", by simp only [drainCmd, hcol]⟩,
          fun collection rest2 _ =>
            Or.inl (by simp only [drainCmd, hcol]; rfl)⟩
      · exact ⟨⟨.emptySlice "value",
            by simp only [drainCmd, hcol, update]⟩,
          fun collection rest2 _ =>
            Or.inr (by simp only [drainCmd, hcol, update])⟩
  obtain ⟨⟨e, he⟩, hrest⟩ := hmain
  exact ⟨⟨e, he⟩, by simp [cmdOps, he], hrest⟩

/-- C6 witness: a null-payload insert on a well-formed key. -/
theorem claim_C6_witness :
    (DatabaseOperation.insert = DatabaseOperation.insert ∨
      DatabaseOperation.insert = DatabaseOperation.update) ∧
    ((none : Option (List Bytes)) = none ∨
      (none : Option (List Bytes)) = some []) ∧
    ((∃ e, drainCmd "T-1" ⟨.insert, some "orders:O-1", none⟩ = .err e) ∧
    cmdOps "T-1" ⟨.insert, some "orders:O-1", none⟩ = [] ∧
    (∀ collection rest2,
      split_once "orders:O-1" DELIMITER = some (collection, rest2) →
      drainCmd "T-1" ⟨.insert, some "orders:O-1", none⟩ =
        .err (.nullPayload
          (if DatabaseOperation.insert = DatabaseOperation.insert then
            "insert" else "update")) ∨
      drainCmd "T-1" ⟨.insert, some "orders:O-1", none⟩ =
        .err (.emptySlice "value"))) :=
  ⟨Or.inl rfl, Or.inl rfl,
    claim_C6_empty_payload_rejected "T-1" "orders:O-1" none .insert
      (Or.inl rfl) (Or.inl rfl)⟩

end RedisCache
